import Mathlib

/-!
# Verification of the analytics core of a YouTube channel analytics dashboard

This file gives a shallow embedding, in Lean 4, of the analytics / inference
layer of the repository (trend forecasting, summary aggregation, day/hour
bucket statistics, title pattern analysis and A/B simulation, content theme
detection, thumbnail comparison scoring), and proves or refutes the claims of
the specification against the embedded code.

Numeric modelling conventions:
* Python floats are modelled as exact rationals (`ℚ`); the properties at stake
  (clamping bounds, zero-division policies, scoring points) are exact-value
  properties that do not depend on rounding error.
* `numpy.clip(x, lo, hi)` is `min hi (max x lo)`.
* Python `int(x)` (truncation toward zero) is `pyInt`.
* Python `round(x, 2)` (round half to even at two decimals) is `round2`.
* pandas `groupby` on a column sorts the group keys in ascending order;
  `Counter` / `dict` preserve first-insertion order, which the association-list
  accumulators below reproduce.
-/

/-! ## Generic numeric helpers -/

/-- `numpy.clip x lo hi = min hi (max x lo)`. -/
def clipQ (x lo hi : ℚ) : ℚ := min hi (max x lo)

/-- Python `int(x)`: truncation toward zero. -/
def pyInt (x : ℚ) : ℤ := if 0 ≤ x then ⌊x⌋ else -⌊-x⌋

/-- Python `round(x)`: round half to even, to an integer. -/
def pyRound (x : ℚ) : ℤ :=
  if x - ⌊x⌋ < 1/2 then ⌊x⌋
  else if x - ⌊x⌋ = 1/2 then (if ⌊x⌋ % 2 = 0 then ⌊x⌋ else ⌊x⌋ + 1)
  else ⌊x⌋ + 1

/-- Python `round(x, 2)`: round half to even at two decimal places. -/
def round2 (x : ℚ) : ℚ := (pyRound (100 * x) : ℚ) / 100

/-- Arithmetic mean of a list of rationals (`numpy.mean` / pandas `.mean()`
on a nonempty column; `0` on the empty list since `0 / 0 = 0` in `ℚ`). -/
def meanQ (l : List ℚ) : ℚ := l.sum / l.length

/-- `numpy.min` over a nonempty list (defaulting to `0` on `[]`). -/
def listMinQ : List ℚ → ℚ
  | [] => 0
  | x :: xs => xs.foldl min x

/-- `numpy.max` over a nonempty list (defaulting to `0` on `[]`). -/
def listMaxQ : List ℚ → ℚ
  | [] => 0
  | x :: xs => xs.foldl max x

theorem foldl_min_le_init (xs : List ℚ) (a : ℚ) : xs.foldl min a ≤ a := by
  induction xs generalizing a with
  | nil => simp
  | cons x xs ih => exact le_trans (ih (min a x)) (min_le_left a x)

theorem foldl_min_le_mem (xs : List ℚ) (a x : ℚ) (hx : x ∈ xs) :
    xs.foldl min a ≤ x := by
  induction xs generalizing a with
  | nil => cases hx
  | cons y ys ih =>
    rcases List.mem_cons.mp hx with h | h
    · subst h
      exact le_trans (foldl_min_le_init ys (min a x)) (min_le_right a x)
    · exact ih (min a y) h

theorem init_le_foldl_max (xs : List ℚ) (a : ℚ) : a ≤ xs.foldl max a := by
  induction xs generalizing a with
  | nil => simp
  | cons x xs ih => exact le_trans (le_max_left a x) (ih (max a x))

theorem mem_le_foldl_max (xs : List ℚ) (a x : ℚ) (hx : x ∈ xs) :
    x ≤ xs.foldl max a := by
  induction xs generalizing a with
  | nil => cases hx
  | cons y ys ih =>
    rcases List.mem_cons.mp hx with h | h
    · subst h
      exact le_trans (le_max_right a x) (init_le_foldl_max ys (max a x))
    · exact ih (max a y) h

theorem foldl_min_mem (xs : List ℚ) (a : ℚ) :
    xs.foldl min a = a ∨ xs.foldl min a ∈ xs := by
  induction xs generalizing a with
  | nil => left; rfl
  | cons x xs ih =>
    rw [List.foldl_cons]
    rcases ih (min a x) with h | h
    · rw [h]
      rcases min_choice a x with h2 | h2
      · left; exact h2
      · right; rw [h2]; exact List.mem_cons_self x xs
    · right; exact List.mem_cons_of_mem _ h

theorem listMinQ_le (l : List ℚ) (x : ℚ) (hx : x ∈ l) : listMinQ l ≤ x := by
  cases l with
  | nil => cases hx
  | cons y ys =>
    rcases List.mem_cons.mp hx with h | h
    · subst h; exact foldl_min_le_init ys x
    · exact foldl_min_le_mem ys y x h

theorem le_listMaxQ (l : List ℚ) (x : ℚ) (hx : x ∈ l) : x ≤ listMaxQ l := by
  cases l with
  | nil => cases hx
  | cons y ys =>
    rcases List.mem_cons.mp hx with h | h
    · subst h; exact init_le_foldl_max ys x
    · exact mem_le_foldl_max ys y x h

theorem listMinQ_mem (l : List ℚ) (h : l ≠ []) : listMinQ l ∈ l := by
  cases l with
  | nil => exact absurd rfl h
  | cons y ys =>
    rcases foldl_min_mem ys y with h2 | h2
    · rw [listMinQ, h2]; exact List.mem_cons_self y ys
    · exact List.mem_cons_of_mem _ h2

theorem listMinQ_le_listMaxQ (l : List ℚ) (h : l ≠ []) :
    listMinQ l ≤ listMaxQ l :=
  le_listMaxQ l (listMinQ l) (listMinQ_mem l h)

theorem listMinQ_nonneg (l : List ℚ) (h : l ≠ []) (hl : ∀ x ∈ l, 0 ≤ x) :
    0 ≤ listMinQ l :=
  hl (listMinQ l) (listMinQ_mem l h)

/-- `pyRound` never rounds below the floor. -/
theorem floor_le_pyRound (x : ℚ) : ⌊x⌋ ≤ pyRound x := by
  unfold pyRound
  split
  · exact le_refl _
  · split
    · split
      · exact le_refl _
      · omega
    · omega

/-- `pyRound x ≤ n` whenever `x ≤ n` for an integer bound `n`. -/
theorem pyRound_le_of_le {x : ℚ} {n : ℤ} (h : x ≤ (n : ℚ)) : pyRound x ≤ n := by
  have hfln : ⌊x⌋ ≤ n := by
    have h2 := Int.floor_le_floor h
    simpa using h2
  unfold pyRound
  split
  · exact hfln
  · rename_i h1
    push_neg at h1
    have hlt : ⌊x⌋ < n := by
      have hx : (⌊x⌋ : ℚ) + 1/2 ≤ x := by linarith
      have h3 : (⌊x⌋ : ℚ) < (n : ℚ) := by linarith
      exact_mod_cast h3
    split
    · split
      · exact hfln
      · omega
    · omega

theorem le_pyRound_of_le {x : ℚ} {n : ℤ} (h : (n : ℚ) ≤ x) : n ≤ pyRound x := by
  have hfl : n ≤ ⌊x⌋ := Int.le_floor.mpr h
  exact le_trans hfl (floor_le_pyRound x)

/-! ## Trend Forecaster (src/forecasting.py, class TrendForecasting)

A video row carries the columns the forecaster reads: the publish date
(epoch day number — `prepare_data` only ever uses differences of dates),
`views`, `engagement_rate` and `subscribers_gained`.  A `Frame` models the
DataFrame; `hasSubscribers` models whether the optional `subscribers_gained`
column is present (`forecast_subscribers` checks `'subscribers_gained' in
self.df.columns`). -/

structure FRow where
  date : ℤ
  views : ℕ
  engagement_rate : ℚ
  subscribers_gained : ℤ
deriving Repr, DecidableEq

structure Frame where
  rows : List FRow
  hasSubscribers : Bool
deriving Repr, DecidableEq

/-- Insert into a sorted, duplicate-free list of dates (ascending). -/
def insertDate (d : ℤ) : List ℤ → List ℤ
  | [] => [d]
  | x :: xs =>
    if d < x then d :: x :: xs
    else if d = x then x :: xs
    else x :: insertDate d xs

/-- The distinct publish dates of the frame, ascending — the group keys of
`self.df.groupby('date')` (pandas sorts group keys). -/
def distinctDates (rows : List FRow) : List ℤ :=
  rows.foldr (fun r acc => insertDate r.date acc) []

/-- `prepare_data`: the `days` column, i.e. each distinct date minus the
minimum date, in ascending date order. -/
def prepDays (rows : List FRow) : List ℚ :=
  let ds := distinctDates rows
  let minD := (ds.headD 0)
  ds.map (fun d => ((d - minD : ℤ) : ℚ))

/-- `prepare_data`: the per-date sums of a metric, in ascending date order. -/
def prepSeries (metric : FRow → ℚ) (rows : List FRow) : List ℚ :=
  (distinctDates rows).map
    (fun d => ((rows.filter (fun r => r.date = d)).map metric).sum)

/-- The daily view totals (`groupby('date')['views'].sum()`). -/
def dailyViews (rows : List FRow) : List ℚ :=
  prepSeries (fun r => (r.views : ℚ)) rows

/-- The daily subscriber-gain totals. -/
def dailySubs (rows : List FRow) : List ℚ :=
  prepSeries (fun r => (r.subscribers_gained : ℚ)) rows

/-- The daily engagement-rate totals. -/
def dailyEngagement (rows : List FRow) : List ℚ :=
  prepSeries (fun r => r.engagement_rate) rows

/-- Ordinary least-squares simple linear regression
(`sklearn.linear_model.LinearRegression` on a single feature), in exact
arithmetic via the closed form; returns `(slope, intercept)`.  The
degenerate branch (zero variance in `x`) is unreachable at every call site,
which guards for at least two distinct days first. -/
def linFit (xs ys : List ℚ) : ℚ × ℚ :=
  let n : ℚ := xs.length
  let sx := xs.sum
  let sy := ys.sum
  let sxx := (xs.map (fun x => x * x)).sum
  let sxy := (List.zipWith (fun x y => x * y) xs ys).sum
  let den := n * sxx - sx * sx
  if den = 0 then (0, 0)
  else
    let slope := (n * sxy - sx * sy) / den
    (slope, (sy - slope * sx) / n)

/-- Degree-2 polynomial least squares (`PolynomialFeatures(degree=2,
include_bias=False)` + `LinearRegression`): minimises the squared error of
`y = a + b·x + c·x²`; solved in exact arithmetic through the normal
equations by Cramer's rule; returns `(a, b, c)`.  On a singular normal
matrix (impossible with ≥ 3 distinct `x` values, and the polynomial branch
requires ≥ 10) it returns `(0, 0, 0)`. -/
def polyFit2 (xs ys : List ℚ) : ℚ × ℚ × ℚ :=
  let n : ℚ := xs.length
  let s1 := xs.sum
  let s2 := (xs.map (fun x => x ^ 2)).sum
  let s3 := (xs.map (fun x => x ^ 3)).sum
  let s4 := (xs.map (fun x => x ^ 4)).sum
  let t0 := ys.sum
  let t1 := (List.zipWith (fun x y => x * y) xs ys).sum
  let t2 := (List.zipWith (fun x y => x ^ 2 * y) xs ys).sum
  let det := n * (s2 * s4 - s3 * s3) - s1 * (s1 * s4 - s3 * s2)
      + s2 * (s1 * s3 - s2 * s2)
  if det = 0 then (0, 0, 0)
  else
    let da := t0 * (s2 * s4 - s3 * s3) - s1 * (t1 * s4 - s3 * t2)
        + s2 * (t1 * s3 - s2 * t2)
    let db := n * (t1 * s4 - s3 * t2) - t0 * (s1 * s4 - s3 * s2)
        + s2 * (s1 * t2 - t1 * s2)
    let dc := n * (s2 * t2 - t1 * s3) - s1 * (s1 * t2 - t1 * s2)
        + t0 * (s1 * s3 - s2 * s2)
    (da / det, db / det, dc / det)

/-- The future `days` values handed to `model.predict`:
`(last_date + i - min_date)` for `i = 1 .. days`. -/
def futureDays (rows : List FRow) (days : ℕ) : List ℚ :=
  let ds := distinctDates rows
  let minD := ds.headD 0
  let lastD := (ds.getLast? ).getD 0
  (List.range days).map (fun i => ((lastD + (i + 1 : ℕ) - minD : ℤ) : ℚ))

/-- Is an `Except` result the tagged error dictionary (`{'error': ...}`)? -/
def isErr : Except String α → Bool
  | .error _ => true
  | .ok _ => false

structure ViewsForecast where
  predictions : List ℚ
  model_type : String
deriving Repr, DecidableEq

/-- The raw (pre-clipping) view predictions: degree-2 polynomial model when
at least 10 distinct days are available (`use_poly = len(X) >= 10`), plain
linear regression otherwise. -/
def viewsRawPredictions (f : Frame) (days : ℕ) : List ℚ :=
  let xs := prepDays f.rows
  let ys := dailyViews f.rows
  let fx := futureDays f.rows days
  if 10 ≤ xs.length then
    let c := polyFit2 xs ys
    fx.map (fun x => c.1 + c.2.1 * x + c.2.2 * x ^ 2)
  else
    let c := linFit xs ys
    fx.map (fun x => c.1 * x + c.2)

/-- `lower_bound = max(0, min_views * 0.5)` over the daily view series. -/
def viewsLowerBound (f : Frame) : ℚ :=
  max 0 (listMinQ (dailyViews f.rows) * (1/2))

/-- `upper_bound = max_views * 2` over the daily view series. -/
def viewsUpperBound (f : Frame) : ℚ :=
  listMaxQ (dailyViews f.rows) * 2

/-- `TrendForecasting.forecast_views`: aggregate views per day, require at
least 2 distinct days, fit a degree-2 polynomial when there are at least 10
distinct days (else plain linear regression), predict the next `days` days,
then clip every prediction to `[max(0, 0.5·min), 2·max]` of the historical
daily series (`np.clip`) and floor at zero (`np.maximum(·, 0)`). -/
def forecast_views (f : Frame) (days : ℕ) : Except String ViewsForecast :=
  if (prepDays f.rows).length < 2 then .error "Not enough data for forecasting"
  else
    .ok { predictions := (viewsRawPredictions f days).map
            (fun p => max (clipQ p (viewsLowerBound f) (viewsUpperBound f)) 0)
          model_type :=
            if 10 ≤ (prepDays f.rows).length then "polynomial" else "linear" }

structure SubsForecast where
  predictions : List ℚ
deriving Repr, DecidableEq

/-- `TrendForecasting.forecast_subscribers`: requires the
`subscribers_gained` column and ≥ 2 distinct days; always fits plain linear
regression; predictions are only floored at zero (`np.maximum(·, 0)`). -/
def subsRawPredictions (f : Frame) (days : ℕ) : List ℚ :=
  let c := linFit (prepDays f.rows) (dailySubs f.rows)
  (futureDays f.rows days).map (fun x => c.1 * x + c.2)

def forecast_subscribers (f : Frame) (days : ℕ) : Except String SubsForecast :=
  if !f.hasSubscribers then .error "Subscriber data not available"
  else if (prepDays f.rows).length < 2 then
    .error "Not enough data for forecasting"
  else
    .ok { predictions := (subsRawPredictions f days).map (fun p => max p 0) }

structure EngForecast where
  predictions : List ℚ
deriving Repr, DecidableEq

def engRawPredictions (f : Frame) (days : ℕ) : List ℚ :=
  let c := linFit (prepDays f.rows) (dailyEngagement f.rows)
  (futureDays f.rows days).map (fun x => c.1 * x + c.2)

/-- `TrendForecasting.forecast_engagement`: requires ≥ 2 distinct days;
always fits plain linear regression; predictions are clipped to `[0, 100]`
(`np.clip(predictions, 0, 100)`). -/
def forecast_engagement (f : Frame) (days : ℕ) : Except String EngForecast :=
  if (prepDays f.rows).length < 2 then .error "Not enough data for forecasting"
  else
    .ok { predictions := (engRawPredictions f days).map (fun p => clipQ p 0 100) }

/-! ## Claims C1, C2, C3 — forecasting -/

theorem clampClip_mem {q lo hi : ℚ} (h0 : 0 ≤ lo) (h1 : lo ≤ hi) :
    lo ≤ max (clipQ q lo hi) 0 ∧ max (clipQ q lo hi) 0 ≤ hi ∧
      0 ≤ max (clipQ q lo hi) 0 := by
  unfold clipQ
  refine ⟨?_, ?_, le_max_right _ 0⟩
  · exact le_trans (le_min h1 (le_max_right q lo)) (le_max_left _ 0)
  · exact max_le (min_le_left _ _) (le_trans h0 h1)

theorem dailyViews_nonneg (rows : List FRow) :
    ∀ x ∈ dailyViews rows, 0 ≤ x := by
  intro x hx
  unfold dailyViews prepSeries at hx
  rcases List.mem_map.mp hx with ⟨d, _, rfl⟩
  apply List.sum_nonneg
  intro y hy
  rcases List.mem_map.mp hy with ⟨r, _, rfl⟩
  positivity

theorem dailyViews_length (rows : List FRow) :
    (dailyViews rows).length = (prepDays rows).length := by
  unfold dailyViews prepSeries prepDays
  simp

/-- Claim C1 (amended): for any RecordSet accepted by the forecaster (at
least 2 distinct days), every prediction of `forecast_views` lies within
`[max(0, 0.5·min), 2·max]` of the historical daily series and is
non-negative; `forecast_subscribers` predictions are merely non-negative
and `forecast_engagement` predictions lie in `[0, 100]` — the interval
clamp of the original claim applies to the views forecast only. -/
theorem C1_amended_bounds (f : Frame) (days : ℕ) :
    (∀ r, forecast_views f days = Except.ok r →
       ∀ p ∈ r.predictions,
         viewsLowerBound f ≤ p ∧ p ≤ viewsUpperBound f ∧ 0 ≤ p) ∧
    (∀ r, forecast_subscribers f days = Except.ok r →
       ∀ p ∈ r.predictions, 0 ≤ p) ∧
    (∀ r, forecast_engagement f days = Except.ok r →
       ∀ p ∈ r.predictions, 0 ≤ p ∧ p ≤ 100) := by
  refine ⟨?_, ?_, ?_⟩
  · intro r h p hp
    unfold forecast_views at h
    split at h
    · simp at h
    · rename_i hlen
      push_neg at hlen
      rw [Except.ok.injEq] at h
      subst h
      simp only [] at hp
      rcases List.mem_map.mp hp with ⟨q, _, rfl⟩
      have hlen2 : (dailyViews f.rows).length = (prepDays f.rows).length :=
        dailyViews_length f.rows
      have hne : dailyViews f.rows ≠ [] := by
        intro hnil
        rw [hnil] at hlen2
        simp at hlen2
        omega
      have hnn := dailyViews_nonneg f.rows
      have hmin0 : 0 ≤ listMinQ (dailyViews f.rows) :=
        listMinQ_nonneg _ hne hnn
      have hminmax := listMinQ_le_listMaxQ _ hne
      have h0 : 0 ≤ viewsLowerBound f := le_max_left 0 _
      have h1 : viewsLowerBound f ≤ viewsUpperBound f := by
        unfold viewsLowerBound viewsUpperBound
        rw [max_le_iff]
        constructor <;> linarith
      exact clampClip_mem h0 h1
  · intro r h p hp
    unfold forecast_subscribers at h
    split at h
    · simp at h
    · split at h
      · simp at h
      · rw [Except.ok.injEq] at h
        subst h
        simp only [] at hp
        rcases List.mem_map.mp hp with ⟨q, _, rfl⟩
        exact le_max_right q 0
  · intro r h p hp
    unfold forecast_engagement at h
    split at h
    · simp at h
    · rw [Except.ok.injEq] at h
      subst h
      simp only [] at hp
      rcases List.mem_map.mp hp with ⟨q, _, rfl⟩
      unfold clipQ
      exact ⟨le_min (by norm_num) (le_max_right q 0), min_le_left _ _⟩

/-- Frame refuting claim C1 as stated: two distinct days with subscriber
gains 0 and 10. -/
def c1Frame : Frame := ⟨[⟨0, 5, 1, 0⟩, ⟨1, 5, 1, 10⟩], true⟩

/-- Claim C1 counterexample: the subscriber forecast of `c1Frame` over a
2-day horizon predicts 30, which exceeds twice the historical maximum (20)
of the daily subscriber series — the interval clamp the claim asserts for
all three metrics is absent from `forecast_subscribers`. -/
theorem C1_counterexample :
    forecast_subscribers c1Frame 2 = Except.ok ⟨[20, 30]⟩ ∧
    listMaxQ (dailySubs c1Frame.rows) * 2 = 20 ∧
    ¬ ((30 : ℚ) ≤ listMaxQ (dailySubs c1Frame.rows) * 2) := by
  refine ⟨?_, ?_, ?_⟩ <;>
    norm_num [forecast_subscribers, subsRawPredictions, linFit, prepDays,
      dailySubs, prepSeries, distinctDates, insertDate, futureDays, c1Frame,
      max_def, listMaxQ, List.range_succ]

/-- Frame with 2 distinct days used to instantiate `C1_amended_bounds`. -/
def c1wFrame : Frame := ⟨[⟨0, 10, 1, 0⟩, ⟨1, 20, 2, 3⟩], true⟩

/-- Claim C1 witness: the amended bound evaluated on a concrete frame whose
single views prediction is 30. -/
theorem C1_witness :
    viewsLowerBound c1wFrame ≤ 30 ∧ (30 : ℚ) ≤ viewsUpperBound c1wFrame ∧
      (0 : ℚ) ≤ 30 :=
  (C1_amended_bounds c1wFrame 1).1 ⟨[30], "linear"⟩
    (by
      norm_num [forecast_views, viewsRawPredictions, viewsLowerBound,
        viewsUpperBound, linFit, polyFit2, prepDays, dailyViews, prepSeries,
        distinctDates, insertDate, futureDays, c1wFrame, max_def, min_def,
        clipQ, List.range_succ, listMinQ, listMaxQ])
    30 (by simp)

/-- Claim C2 (amended): the polynomial-versus-linear model selection is
applied by the views forecaster — its model is degree-2 polynomial exactly
when at least 10 distinct observation days exist, else plain linear.  (The
subscriber and engagement forecasters always fit plain linear regression;
see `C2_counterexample`.) -/
theorem C2_model_selection (f : Frame) (days : ℕ) (r : ViewsForecast)
    (h : forecast_views f days = Except.ok r) :
    r.model_type =
      if 10 ≤ (distinctDates f.rows).length then "polynomial" else "linear" := by
  unfold forecast_views at h
  split at h
  · simp at h
  · rw [Except.ok.injEq] at h
    subst h
    have hlen : (prepDays f.rows).length = (distinctDates f.rows).length := by
      unfold prepDays
      simp
    simp only [hlen]

/-- Frame with exactly 10 distinct days whose subscriber series is the
exact quadratic `i²`. -/
def c2Frame : Frame :=
  ⟨(List.range 10).map (fun i => ⟨(i : ℤ), 100, 1, (i : ℤ) * (i : ℤ)⟩), true⟩

/-- What fitting the degree-2 polynomial (the model the claim asserts for
10+ distinct days) would predict for the subscriber series on the day after
the last observation. -/
def subsPolyPrediction (f : Frame) : ℚ :=
  let c := polyFit2 (prepDays f.rows) (dailySubs f.rows)
  let x := (futureDays f.rows 1).headD 0
  c.1 + c.2.1 * x + c.2.2 * x ^ 2

/-- Claim C2 counterexample: on 10 distinct days of exactly quadratic
subscriber data, `forecast_subscribers` predicts 78 (the linear fit) while
the degree-2 polynomial fit the claim prescribes would predict 100 — the
subscriber forecaster never switches to the polynomial model. -/
theorem C2_counterexample :
    (distinctDates c2Frame.rows).length = 10 ∧
    forecast_subscribers c2Frame 1 = Except.ok ⟨[78]⟩ ∧
    subsPolyPrediction c2Frame = 100 ∧ (78 : ℚ) ≠ 100 := by
  refine ⟨by decide, ?_, ?_, by norm_num⟩
  · norm_num [forecast_subscribers, subsRawPredictions, linFit, prepDays,
      dailySubs, prepSeries, distinctDates, insertDate, futureDays, c2Frame,
      max_def, List.range_succ]
  · norm_num [subsPolyPrediction, polyFit2, prepDays, dailySubs, prepSeries,
      distinctDates, insertDate, futureDays, c2Frame, List.range_succ]

/-- Claim C2 witness: the amended model-selection rule evaluated on
`c2Frame` (10 distinct days — polynomial). -/
theorem C2_witness :
    (ViewsForecast.mk [100] "polynomial").model_type =
      if 10 ≤ (distinctDates c2Frame.rows).length then "polynomial"
      else "linear" :=
  C2_model_selection c2Frame 1 _
    (by
      norm_num [forecast_views, viewsRawPredictions, viewsLowerBound,
        viewsUpperBound, polyFit2, prepDays, dailyViews, prepSeries,
        distinctDates, insertDate, futureDays, c2Frame, max_def, min_def,
        clipQ, List.range_succ, listMinQ, listMaxQ])

/-- Claim C3: with fewer than 2 distinct publish days every forecast
function returns the explicit `{'error': ...}` result (embedded as
`Except.error`); no exception is possible since the embedding is total. -/
theorem C3_insufficient_data (f : Frame) (days : ℕ)
    (h : (distinctDates f.rows).length < 2) :
    isErr (forecast_views f days) = true ∧
    isErr (forecast_subscribers f days) = true ∧
    isErr (forecast_engagement f days) = true := by
  have hlen : (prepDays f.rows).length < 2 := by
    unfold prepDays
    simpa using h
  refine ⟨?_, ?_, ?_⟩
  · unfold forecast_views
    rw [if_pos hlen]
    rfl
  · unfold forecast_subscribers
    cases hs : f.hasSubscribers with
    | false => simp [isErr]
    | true => simp [hlen, isErr]
  · unfold forecast_engagement
    rw [if_pos hlen]
    rfl

/-- A RecordSet of exactly one record (one distinct day). -/
def c3Frame : Frame := ⟨[⟨5, 100, 3, 7⟩], true⟩

/-- Claim C3 witness: all three forecasts return the error result on a
single-record frame. -/
theorem C3_witness :
    isErr (forecast_views c3Frame 30) = true ∧
    isErr (forecast_subscribers c3Frame 30) = true ∧
    isErr (forecast_engagement c3Frame 30) = true :=
  C3_insufficient_data c3Frame 30 (by decide)

/-! ## Summary Aggregator and Temporal Performance Analyzer
(src/metrics.py, class AnalyticsMetrics)

An `MRow` carries the columns these functions read.  Per the §3 schema all
of `views`, `likes`, `comments`, `engagement_rate`, `day_of_week`, `hour`
are present; `day_of_week` is derived from the publish timestamp
(`dt.day_name()`), modelled as `Fin 7` with `0 = Monday … 6 = Sunday`.
The optional-column aggregates of `get_summary_stats` (watch time, CTR,
impressions, subscribers) default to constants when the columns are absent
and are not claims-relevant, so they are omitted from the result record. -/

structure MRow where
  views : ℕ
  likes : ℕ
  comments : ℕ
  engagement_rate : ℚ
  day_of_week : Fin 7
  hour : ℕ
deriving Repr, DecidableEq

structure SummaryStats where
  total_videos : ℕ
  total_views : ℕ
  total_likes : ℕ
  total_comments : ℕ
  avg_views : ℚ
  avg_likes : ℚ
  avg_comments : ℚ
  avg_engagement_rate : ℚ
deriving Repr, DecidableEq, Inhabited

/-- `AnalyticsMetrics.get_summary_stats`: `{}` (here `none`) on an empty
frame, otherwise the totals and means; with the `engagement_rate` column
present, `avg_engagement_rate` is the column mean. -/
def get_summary_stats (rows : List MRow) : Option SummaryStats :=
  if rows.isEmpty then none
  else some
    { total_videos := rows.length
      total_views := (rows.map (·.views)).sum
      total_likes := (rows.map (·.likes)).sum
      total_comments := (rows.map (·.comments)).sum
      avg_views := meanQ (rows.map (fun r => (r.views : ℚ)))
      avg_likes := meanQ (rows.map (fun r => (r.likes : ℚ)))
      avg_comments := meanQ (rows.map (fun r => (r.comments : ℚ)))
      avg_engagement_rate := meanQ (rows.map (·.engagement_rate)) }

structure BucketStats where
  views : ℚ
  likes : ℚ
  comments : ℚ
  engagement_rate : ℚ
  video_count : ℕ
deriving Repr, DecidableEq

/-- The per-bucket aggregate of `groupby(...).agg(...)`: mean views, mean
likes, mean comments, mean engagement, record count. -/
def bucketStatsOf (g : List MRow) : BucketStats :=
  { views := meanQ (g.map (fun r => (r.views : ℚ)))
    likes := meanQ (g.map (fun r => (r.likes : ℚ)))
    comments := meanQ (g.map (fun r => (r.comments : ℚ)))
    engagement_rate := meanQ (g.map (·.engagement_rate))
    video_count := g.length }

/-- `AnalyticsMetrics.get_performance_by_day`: group by `day_of_week`, then
`reindex(day_order)` — the reindex conforms the table to the full
Monday→Sunday calendar list, creating an all-NaN row (modelled `none`) for
every weekday that has no records. -/
def get_performance_by_day (rows : List MRow) :
    List (Fin 7 × Option BucketStats) :=
  if rows.isEmpty then []
  else
    (List.finRange 7).map (fun d =>
      let g := rows.filter (fun r => r.day_of_week = d)
      (d, if g.isEmpty then none else some (bucketStatsOf g)))

/-- Insert into a sorted, duplicate-free list of hours (ascending). -/
def insertHour (d : ℕ) : List ℕ → List ℕ
  | [] => [d]
  | x :: xs =>
    if d < x then d :: x :: xs
    else if d = x then x :: xs
    else x :: insertHour d xs

/-- The distinct hour values, ascending — the group keys of
`groupby('hour')`. -/
def sortedHours (rows : List MRow) : List ℕ :=
  rows.foldr (fun r acc => insertHour r.hour acc) []

/-- `AnalyticsMetrics.get_performance_by_hour`: group by `hour` and
aggregate; no reindexing, so only hours with at least one record appear. -/
def get_performance_by_hour (rows : List MRow) : List (ℕ × BucketStats) :=
  if rows.isEmpty then []
  else
    (sortedHours rows).map
      (fun h => (h, bucketStatsOf (rows.filter (fun r => r.hour = h))))

/-! ## Claims C5, C7 — summary aggregation and bucket statistics -/

/-- Claim C5: under the §3 schema (per-row engagement rate is
`(likes + comments) / views × 100`, and `0` when `views = 0`), whenever the
views sum is zero the summary's average engagement rate is exactly `0`; the
embedding is total and works in `ℚ`, so no exception, NaN or infinity can
arise. -/
theorem C5_zero_views_engagement (rows : List MRow)
    (hschema : ∀ r ∈ rows,
      r.engagement_rate =
        if r.views = 0 then 0
        else ((r.likes : ℚ) + (r.comments : ℚ)) / (r.views : ℚ) * 100)
    (hsum : (rows.map (·.views)).sum = 0) :
    ∀ s, get_summary_stats rows = some s → s.avg_engagement_rate = 0 := by
  intro s hs
  unfold get_summary_stats at hs
  split at hs
  · simp at hs
  · rw [Option.some.injEq] at hs
    subst hs
    show meanQ (rows.map (·.engagement_rate)) = 0
    have hzero : ∀ r ∈ rows, r.engagement_rate = 0 := by
      intro r hr
      have hv : r.views = 0 := by
        have hall := (List.sum_eq_zero_iff).mp hsum
        exact hall _ (List.mem_map_of_mem (·.views) hr)
      rw [hschema r hr, if_pos hv]
    have hsum0 : (rows.map (·.engagement_rate)).sum = 0 := by
      apply List.sum_eq_zero
      intro x hx
      rcases List.mem_map.mp hx with ⟨r, hr, rfl⟩
      exact hzero r hr
    rw [meanQ, hsum0, zero_div]

/-- Two records with zero views and zero engagement rate (spec scenario 4). -/
def c5rows : List MRow := [⟨0, 0, 0, 0, 0, 10⟩, ⟨0, 0, 0, 0, 0, 12⟩]

/-- The summary the aggregator produces on `c5rows`. -/
def c5stats : SummaryStats := ⟨2, 0, 0, 0, 0, 0, 0, 0⟩

/-- Claim C5 witness: on two records with zero views the average engagement
rate is `0`, not NaN. -/
theorem C5_witness : c5stats.avg_engagement_rate = 0 :=
  C5_zero_views_engagement c5rows (by decide) (by decide) c5stats
    (by norm_num [get_summary_stats, meanQ, c5rows, c5stats])

/-- Membership in an ordered duplicate-free hour insertion. -/
theorem mem_insertHour (a b : ℕ) (l : List ℕ) :
    a ∈ insertHour b l ↔ a = b ∨ a ∈ l := by
  induction l with
  | nil => simp [insertHour]
  | cons x xs ih =>
    unfold insertHour
    split
    · simp
    · split
      · rename_i hlt heq
        subst heq
        simp only [List.mem_cons]
        constructor
        · intro hmem
          rcases hmem with h | h
          · exact Or.inl h
          · exact Or.inr (Or.inr h)
        · intro hmem
          rcases hmem with h | h | h
          · exact Or.inl h
          · exact Or.inl h
          · exact Or.inr h
      · simp only [List.mem_cons, ih]
        tauto

/-- An hour is a group key iff some record has that hour. -/
theorem mem_sortedHours (rows : List MRow) (hr : ℕ) :
    hr ∈ sortedHours rows ↔ ∃ r ∈ rows, r.hour = hr := by
  induction rows with
  | nil => simp [sortedHours]
  | cons r rs ih =>
    unfold sortedHours at ih ⊢
    rw [List.foldr_cons, mem_insertHour, ih]
    constructor
    · intro hmem
      rcases hmem with h | ⟨r2, hr2, hh⟩
      · exact ⟨r, List.mem_cons_self r rs, h.symm⟩
      · exact ⟨r2, List.mem_cons_of_mem r hr2, hh⟩
    · intro hmem
      rcases hmem with ⟨r2, hr2, hh⟩
      rcases List.mem_cons.mp hr2 with h | h
      · subst h
        exact Or.inl hh.symm
      · exact Or.inr ⟨r2, h, hh⟩

/-- Claim C7 (amended): for every non-empty RecordSet,
(1) the weekday table has one row for each of the 7 calendar weekdays in
Monday→Sunday order — a weekday with at least one record carries computed
stats (`some`), and a weekday with zero records carries a fabricated NaN
placeholder row (`none`), contrary to the original claim; and
(2) the hour table contains an entry for exactly those hours having at
least one record. -/
theorem C7_buckets (rows : List MRow) (h : rows ≠ []) :
    ((get_performance_by_day rows).map Prod.fst = List.finRange 7) ∧
    (∀ d : Fin 7, ∃ o, (d, o) ∈ get_performance_by_day rows ∧
       (o.isSome = true ↔ ∃ r ∈ rows, r.day_of_week = d)) ∧
    (∀ hr : ℕ, (∃ s, (hr, s) ∈ get_performance_by_hour rows) ↔
       ∃ r ∈ rows, r.hour = hr) := by
  have hne : rows.isEmpty = false := by
    cases rows with
    | nil => exact absurd rfl h
    | cons a l => rfl
  refine ⟨?_, ?_, ?_⟩
  · unfold get_performance_by_day
    rw [if_neg (by simp [hne])]
    rw [List.map_map]
    have hid : (Prod.fst ∘ fun d : Fin 7 =>
        (d, if (rows.filter (fun r => r.day_of_week = d)).isEmpty then none
            else some (bucketStatsOf
              (rows.filter (fun r => r.day_of_week = d))))) = id := rfl
    rw [hid, List.map_id]
  · intro d
    unfold get_performance_by_day
    rw [if_neg (by simp [hne])]
    refine ⟨if (rows.filter (fun r => r.day_of_week = d)).isEmpty then none
        else some (bucketStatsOf (rows.filter (fun r => r.day_of_week = d))),
      List.mem_map.mpr ⟨d, List.mem_finRange d, rfl⟩, ?_⟩
    by_cases hcase : (rows.filter (fun r => r.day_of_week = d)).isEmpty = true
    · rw [if_pos hcase]
      simp only [Option.isSome_none, Bool.false_eq_true, false_iff]
      rw [List.isEmpty_iff] at hcase
      intro ⟨r, hrmem, hrd⟩
      have : r ∈ rows.filter (fun r => r.day_of_week = d) :=
        List.mem_filter.mpr ⟨hrmem, by simp [hrd]⟩
      rw [hcase] at this
      cases this
    · rw [if_neg hcase]
      simp only [Option.isSome_some, true_iff]
      rw [Bool.not_eq_true, List.isEmpty_eq_false_iff_exists_mem] at hcase
      rcases hcase with ⟨r, hrmem⟩
      rcases List.mem_filter.mp hrmem with ⟨hrows, hd⟩
      exact ⟨r, hrows, by simpa using hd⟩
  · intro hr
    unfold get_performance_by_hour
    rw [if_neg (by simp [hne])]
    rw [← mem_sortedHours]
    constructor
    · intro ⟨s, hs⟩
      rcases List.mem_map.mp hs with ⟨a, ha, heq⟩
      have : a = hr := congrArg Prod.fst heq
      rw [← this]
      exact ha
    · intro hmem
      exact ⟨bucketStatsOf (rows.filter (fun r => r.hour = hr)),
        List.mem_map.mpr ⟨hr, hmem, rfl⟩⟩

/-- A single record published on Monday (`day_of_week = 0`) at hour 14. -/
def c7row : MRow := ⟨1000, 10, 5, 1, 0, 14⟩

/-- Claim C7 counterexample: with a single Monday record, the weekday table
contains a `(Tuesday, NaN-placeholder)` entry even though no record falls
on Tuesday — zero-record weekday buckets are fabricated by
`reindex(day_order)`, not omitted. -/
theorem C7_counterexample :
    ((1 : Fin 7), (none : Option BucketStats)) ∈ get_performance_by_day [c7row] ∧
    ¬ ∃ r ∈ [c7row], r.day_of_week = (1 : Fin 7) := by
  constructor
  · unfold get_performance_by_day
    rw [if_neg (by simp)]
    exact List.mem_map.mpr ⟨1, List.mem_finRange 1, rfl⟩
  · decide

/-- A single record at hour 14 used to instantiate `C7_buckets`. -/
def c7wrows : List MRow := [⟨100, 1, 1, 1, 0, 14⟩]

/-- Claim C7 witness: the amended bucket property evaluated on a concrete
single-record set, at hour 14. -/
theorem C7_witness :
    ((get_performance_by_day c7wrows).map Prod.fst = List.finRange 7) ∧
    ((∃ s, ((14 : ℕ), s) ∈ get_performance_by_hour c7wrows) ↔
      ∃ r ∈ c7wrows, r.hour = 14) :=
  ⟨(C7_buckets c7wrows (by decide)).1, (C7_buckets c7wrows (by decide)).2.2 14⟩

/-! ## A/B Simulator — title patterns (src/ab_testing.py, class ABTestSimulator)

Titles are modelled as character lists; Python's `str.lower()` is the
character-wise `Char.toLower` (ASCII titles), substring containment
(`'tip' in title`) is `List.isInfixOf`, and `re.search(r'\d+', title)` is
"some digit character occurs".  The 14 feature predicates below take the
already-lowercased title, exactly as both `extract_title_features` and
`_extract_single_title_features` compute them after lowering. -/

def lowerTitle (t : List Char) : List Char := t.map Char.toLower

/-- Python substring containment `needle in haystack`: the needle occurs as
a contiguous run of the haystack. -/
def subStr (needle : List Char) : List Char → Bool
  | [] => needle.isEmpty
  | c :: rest => needle.isPrefixOf (c :: rest) || subStr needle rest

def featNumber (t : List Char) : Bool := t.any Char.isDigit

def featHowto (t : List Char) : Bool :=
  subStr "how to".toList t || subStr "how-to".toList t

def featTips (t : List Char) : Bool :=
  subStr "tip".toList t || subStr "tips".toList t

def featSecrets (t : List Char) : Bool :=
  subStr "secret".toList t || subStr "secrets".toList t

def featGuide (t : List Char) : Bool :=
  subStr "guide".toList t || subStr "tutorial".toList t

def featVersus (t : List Char) : Bool :=
  subStr "vs".toList t || subStr "versus".toList t

def featList (t : List Char) : Bool := subStr "list".toList t

def featReview (t : List Char) : Bool := subStr "review".toList t

def featMyth (t : List Char) : Bool :=
  subStr "myth".toList t || subStr "false".toList t

def featWhy (t : List Char) : Bool := subStr "why".toList t

def featBest (t : List Char) : Bool := subStr "best".toList t

def featBeginner (t : List Char) : Bool :=
  subStr "beginner".toList t || subStr "start".toList t

def featAdvanced (t : List Char) : Bool :=
  subStr "advanced".toList t || subStr "pro".toList t

def featQuestion (t : List Char) : Bool := t.contains '?'

/-- The boolean title features, in the iteration order of the Python dict /
`feature_cols` list (identical, after stripping the `has_` prefix). -/
def featureDefs : List (String × (List Char → Bool)) :=
  [("number", featNumber), ("howto", featHowto), ("tips", featTips),
   ("secrets", featSecrets), ("guide", featGuide), ("versus", featVersus),
   ("list", featList), ("review", featReview), ("myth", featMyth),
   ("why", featWhy), ("best", featBest), ("beginner", featBeginner),
   ("advanced", featAdvanced), ("question", featQuestion)]

structure ABRow where
  title : List Char
  views : ℕ
deriving Repr, DecidableEq

/-- The rows whose (lowercased) title satisfies the feature. -/
def withFeature (p : List Char → Bool) (rows : List ABRow) : List ABRow :=
  rows.filter (fun r => p (lowerTitle r.title))

/-- The rows whose (lowercased) title does not satisfy the feature. -/
def withoutFeature (p : List Char → Bool) (rows : List ABRow) : List ABRow :=
  rows.filter (fun r => !(p (lowerTitle r.title)))

structure PatternInfo where
  avg_views_with : ℤ
  avg_views_without : ℤ
  improvement_percentage : ℚ
  sample_size_with : ℕ
  sample_size_without : ℕ
  confidence : String
deriving Repr, DecidableEq

/-- Sample-size confidence label of `analyze_title_patterns`. -/
def confidenceOf (total : ℕ) : String :=
  if 20 ≤ total then "High" else if 10 ≤ total then "Medium" else "Low"

/-- `ABTestSimulator.analyze_title_patterns`: for each feature, keep it only
if both the with-group and the without-group have at least
`min_sample_size = 3` rows *and* the without-group's mean views is strictly
positive; the improvement percentage is clamped to `[-30, 30]` and rounded
to two decimals.  (On an empty frame the Python code returns
`{'error': ...}`, which contains no feature key; returning the empty
association list models every feature lookup on it failing.) -/
def meanViews (g : List ABRow) : ℚ := meanQ (g.map (fun r => (r.views : ℚ)))

def analyze_title_patterns (rows : List ABRow) : List (String × PatternInfo) :=
  if rows.isEmpty then []
  else
    featureDefs.filterMap (fun fp =>
      if 3 ≤ (withFeature fp.2 rows).length ∧
          3 ≤ (withoutFeature fp.2 rows).length then
        if 0 < meanViews (withoutFeature fp.2 rows) then
          some (fp.1,
            { avg_views_with := pyInt (meanViews (withFeature fp.2 rows))
              avg_views_without := pyInt (meanViews (withoutFeature fp.2 rows))
              improvement_percentage :=
                round2 (max (-30) (min 30
                  ((meanViews (withFeature fp.2 rows) -
                      meanViews (withoutFeature fp.2 rows)) /
                    meanViews (withoutFeature fp.2 rows) * 100)))
              sample_size_with := (withFeature fp.2 rows).length
              sample_size_without := (withoutFeature fp.2 rows).length
              confidence := confidenceOf ((withFeature fp.2 rows).length +
                (withoutFeature fp.2 rows).length) })
        else none
      else none)

/-- `_extract_single_title_features`: the feature vector of one title. -/
def extract_single_title_features (t : List Char) : List (String × Bool) :=
  featureDefs.map (fun fp => (fp.1, fp.2 (lowerTitle t)))

/-- The signed impacts of the changed features in `simulate_title_change`:
for each feature present in both vectors and in the pattern analysis whose
value changed, the improvement percentage (negated when the feature was
removed). -/
def changedImpacts (rows : List ABRow) (t1 t2 : List Char) : List ℚ :=
  let cf := extract_single_title_features t1
  let nf := extract_single_title_features t2
  let pats := analyze_title_patterns rows
  cf.filterMap (fun fc =>
    match nf.lookup fc.1, pats.lookup fc.1 with
    | some nv, some info =>
      if nv ≠ fc.2 then
        some (if nv then info.improvement_percentage
              else -info.improvement_percentage)
      else none
    | _, _ => none)

structure SimResult where
  expected_improvement : ℚ
  recommendation : String
deriving Repr, DecidableEq

/-- The bucketed textual recommendation (`_get_title_recommendation`). -/
def getTitleRecommendation (x : ℚ) : String :=
  if 10 < x then "Moderately recommended - slight improvement possible"
  else if 3 < x then "Slight improvement possible - worth testing"
  else if -3 < x then "Minimal impact expected - title change unlikely to help"
  else if -10 < x then "Not recommended - slight decrease possible"
  else "Avoid this change - negative impact likely"

/-- `ABTestSimulator.simulate_title_change`: mean of the changed features'
signed impacts, damped by 0.5, capped at ±25 (0 when no tracked feature
changed); the reported `expected_improvement` is `round(·, 2)` of that. -/
def simulate_title_change (rows : List ABRow) (t1 t2 : List Char) : SimResult :=
  let imps := changedImpacts rows t1 t2
  let expected :=
    if imps.isEmpty then 0 else max (-25) (min 25 (meanQ imps * (1/2)))
  { expected_improvement := round2 expected
    recommendation := getTitleRecommendation expected }

/-! ## Claims C4, C10 — title-change simulation and pattern omission -/

/-- The specification's formula for the title-change estimate: average the
changed features' signed impacts, dampen by the fixed factor 0.5, and clamp
the result to `[-25, 25]` (0 when no tracked feature changed). -/
def specExpectedChange (imps : List ℚ) : ℚ :=
  if imps.isEmpty then 0 else max (-25) (min 25 (meanQ imps * (1/2)))

theorem round2_le_of_le {x : ℚ} {n : ℤ} (h : x ≤ (n : ℚ)) :
    round2 x ≤ (n : ℚ) := by
  unfold round2
  rw [div_le_iff₀ (by norm_num : (0:ℚ) < 100)]
  have h2 : pyRound (100 * x) ≤ 100 * n := by
    apply pyRound_le_of_le
    push_cast
    linarith
  calc ((pyRound (100 * x) : ℤ) : ℚ) ≤ ((100 * n : ℤ) : ℚ) := by
        exact_mod_cast h2
    _ = (n : ℚ) * 100 := by push_cast; ring

theorem le_round2_of_le {x : ℚ} {n : ℤ} (h : (n : ℚ) ≤ x) :
    (n : ℚ) ≤ round2 x := by
  unfold round2
  rw [le_div_iff₀ (by norm_num : (0:ℚ) < 100)]
  have h2 : 100 * n ≤ pyRound (100 * x) := by
    apply le_pyRound_of_le
    push_cast
    linarith
  calc (n : ℚ) * 100 = ((100 * n : ℤ) : ℚ) := by push_cast; ring
    _ ≤ ((pyRound (100 * x) : ℤ) : ℚ) := by exact_mod_cast h2

/-- Claim C4: `simulate_title_change` computes its estimate as the average
of the changed features' signed improvement percentages, damped by the
fixed factor 0.5 and clamped to `[-25, 25]` (then reported rounded to two
decimals), and consequently the returned `expected_improvement` always lies
within `[-25, 25]`, for every RecordSet and every pair of titles. -/
theorem C4_title_change_damped_clamped (rows : List ABRow) (t1 t2 : List Char) :
    (simulate_title_change rows t1 t2).expected_improvement
      = round2 (specExpectedChange (changedImpacts rows t1 t2)) ∧
    -25 ≤ (simulate_title_change rows t1 t2).expected_improvement ∧
    (simulate_title_change rows t1 t2).expected_improvement ≤ 25 := by
  have hb : -(25:ℚ) ≤ specExpectedChange (changedImpacts rows t1 t2) ∧
      specExpectedChange (changedImpacts rows t1 t2) ≤ 25 := by
    unfold specExpectedChange
    split
    · norm_num
    · exact ⟨le_max_left _ _, max_le (by norm_num) (min_le_left _ _)⟩
  refine ⟨rfl, ?_, ?_⟩
  · have h := le_round2_of_le (n := -25)
      (x := specExpectedChange (changedImpacts rows t1 t2))
      (by push_cast; linarith [hb.1])
    have hcast : ((-25 : ℤ) : ℚ) = -25 := by push_cast; ring
    rw [hcast] at h
    exact h
  · have h := round2_le_of_le (n := 25)
      (x := specExpectedChange (changedImpacts rows t1 t2))
      (by push_cast; linarith [hb.2])
    have hcast : ((25 : ℤ) : ℚ) = 25 := by push_cast; ring
    rw [hcast] at h
    exact h

/-- Six videos: a feature (`best`) present on 3 titles and absent from 3,
with the without-group having zero mean views. -/
def c10rows : List ABRow :=
  [⟨"best aaaa".toList, 100⟩, ⟨"best aaaa".toList, 100⟩,
   ⟨"best aaaa".toList, 100⟩, ⟨"qqqq".toList, 0⟩, ⟨"qqqq".toList, 0⟩,
   ⟨"qqqq".toList, 0⟩]

/-- Claim C10: a feature survives `analyze_title_patterns` only when both
groups have at least 3 samples *and* the without-group's mean views is
strictly positive; on `c10rows` the `best` feature has 3 samples on each
side yet is absent from the analysis because the without-group's mean views
is 0. -/
theorem C10_pattern_omission :
    (∀ (rows : List ABRow) (name : String) (info : PatternInfo),
       (name, info) ∈ analyze_title_patterns rows →
       3 ≤ info.sample_size_with ∧ 3 ≤ info.sample_size_without ∧
       ∃ p, (name, p) ∈ featureDefs ∧
         0 < meanViews (withoutFeature p rows)) ∧
    (analyze_title_patterns c10rows = [] ∧
     3 ≤ (withFeature featBest c10rows).length ∧
     3 ≤ (withoutFeature featBest c10rows).length ∧
     ("best", featBest) ∈ featureDefs) := by
  constructor
  · intro rows name info hmem
    unfold analyze_title_patterns at hmem
    split at hmem
    · simp at hmem
    · rcases List.mem_filterMap.mp hmem with ⟨fp, hfp, heq⟩
      obtain ⟨n0, p0⟩ := fp
      split at heq
      · split at heq
        · rename_i hcond hpos
          rw [Option.some.injEq, Prod.mk.injEq] at heq
          obtain ⟨h1, h2⟩ := heq
          subst h1
          subst h2
          exact ⟨hcond.1, hcond.2, p0, hfp, hpos⟩
        · exact absurd heq (by simp)
      · exact absurd heq (by simp)
  · refine ⟨?_, by decide, by decide, by simp [featureDefs]⟩
    norm_num +decide [analyze_title_patterns, featureDefs, withFeature,
      withoutFeature, meanViews, meanQ, c10rows, lowerTitle, featNumber,
      featHowto, featTips, featSecrets, featGuide, featVersus, featList,
      featReview, featMyth, featWhy, featBest, featBeginner, featAdvanced,
      featQuestion, subStr, List.filterMap_cons]

/-- Six videos where the `best` feature passes all the guards. -/
def c10wrows : List ABRow :=
  [⟨"best aaaa".toList, 200⟩, ⟨"best aaaa".toList, 200⟩,
   ⟨"best aaaa".toList, 200⟩, ⟨"qqqq".toList, 100⟩, ⟨"qqqq".toList, 100⟩,
   ⟨"qqqq".toList, 100⟩]

set_option maxHeartbeats 2000000 in
/-- Claim C10 witness: the retained-pattern property instantiated on a
concrete analysis where `best` is kept. -/
theorem C10_witness :
    3 ≤ (PatternInfo.mk 200 100 30 3 3 "Low").sample_size_with ∧
    3 ≤ (PatternInfo.mk 200 100 30 3 3 "Low").sample_size_without ∧
    ∃ p, ("best", p) ∈ featureDefs ∧
      0 < meanViews (withoutFeature p c10wrows) :=
  C10_pattern_omission.1 c10wrows "best" ⟨200, 100, 30, 3, 3, "Low"⟩
    (by
      have h : analyze_title_patterns c10wrows =
          [("best", ⟨200, 100, 30, 3, 3, "Low"⟩)] := by
        norm_num +decide [analyze_title_patterns, featureDefs, withFeature,
          withoutFeature, meanViews, meanQ, c10wrows, lowerTitle, featNumber,
          featHowto, featTips, featSecrets, featGuide, featVersus, featList,
          featReview, featMyth, featWhy, featBest, featBeginner, featAdvanced,
          featQuestion, subStr, List.filterMap_cons, pyInt, round2, pyRound,
          confidenceOf]
      rw [h]
      exact List.mem_cons_self _ _)

/-! ## Pattern Detector — content themes
(src/pattern_detection.py, PatternDetection.detect_content_themes)

Tokenisation models `re.findall(r'\b\w{4,}\b', title.lower())`: the maximal
runs of word characters (alphanumeric or underscore) of length at least 4.
`Counter` / dict comprehensions preserve first-insertion order, modelled by
the association-list accumulators; `Counter.most_common(10)` is a stable
descending sort by count, truncated to 10; Python's `max(..., key=len)`
keeps the first element among ties, modelled by a fold that replaces the
best candidate only on strictly greater length. -/

structure PDRow where
  title : List Char
  views : ℕ
deriving Repr, DecidableEq

def isWordChar (c : Char) : Bool := c.isAlphanum || c = '_'

/-- Maximal runs of word characters (the accumulator holds the current run
reversed). -/
def wordRuns : List Char → List Char → List (List Char)
  | [], acc => if acc.isEmpty then [] else [acc.reverse]
  | c :: cs, acc =>
    if isWordChar c then wordRuns cs (c :: acc)
    else if acc.isEmpty then wordRuns cs []
    else acc.reverse :: wordRuns cs []

/-- The words of length ≥ 4 of a lowercased title. -/
def titleWords (t : List Char) : List (List Char) :=
  (wordRuns (lowerTitle t) []).filter (fun w => 4 ≤ w.length)

/-- Bump a word's count in an insertion-ordered association list. -/
def bumpCount : List (List Char × ℕ) → List Char → List (List Char × ℕ)
  | [], w => [(w, 1)]
  | (x, n) :: rest, w =>
    if x = w then (x, n + 1) :: rest else (x, n) :: bumpCount rest w

/-- `Counter(all_words)`: word frequency over every title, in
first-occurrence order. -/
def wordCounts (rows : List PDRow) : List (List Char × ℕ) :=
  ((rows.map (fun r => titleWords r.title)).flatten).foldl bumpCount []

/-- `Counter.most_common n`: stable sort by descending count, first `n`. -/
def mostCommon (l : List (List Char × ℕ)) (n : ℕ) : List (List Char × ℕ) :=
  (l.mergeSort (fun a b => decide (b.2 ≤ a.2))).take n

/-- The theme candidate keywords: words occurring at least twice, falling
back to the 10 most frequent words when fewer than 3 qualify. -/
def commonWords (rows : List PDRow) : List (List Char) :=
  (if ((wordCounts rows).filter (fun p => 2 ≤ p.2)).length < 3 then
    mostCommon (wordCounts rows) 10
  else
    (wordCounts rows).filter (fun p => 2 ≤ p.2)).map Prod.fst

/-- The candidate keywords contained in a (lowercased) title. -/
def matchedThemes (cands : List (List Char)) (titleL : List Char) :
    List (List Char) :=
  cands.filter (fun w => subStr w titleL)

/-- `max(matched_themes, key=len)`: the longest matched keyword, first
among ties; `none` when no candidate matches. -/
def primaryTheme (cands : List (List Char)) (titleL : List Char) :
    Option (List Char) :=
  match matchedThemes cands titleL with
  | [] => none
  | h :: t =>
    some (t.foldl (fun best w => if best.length < w.length then w else best) h)

structure ThemeAcc where
  viewsList : List ℕ
  count : ℕ
  firstTitle : List Char
deriving Repr, DecidableEq

/-- Append a video to its theme bucket (`defaultdict` semantics: buckets in
first-assignment order). -/
def addToTheme : List (List Char × ThemeAcc) → List Char → PDRow →
    List (List Char × ThemeAcc)
  | [], w, r => [(w, ⟨[r.views], 1, r.title⟩)]
  | (x, a) :: rest, w, r =>
    if x = w then
      (x, { a with viewsList := a.viewsList ++ [r.views],
                   count := a.count + 1 }) :: rest
    else (x, a) :: addToTheme rest w r

/-- One step of the bucket fold: skip the video when no candidate matches,
else add it to its single assigned theme. -/
def themeStep (cands : List (List Char)) (acc : List (List Char × ThemeAcc))
    (r : PDRow) : List (List Char × ThemeAcc) :=
  match primaryTheme cands (lowerTitle r.title) with
  | none => acc
  | some w => addToTheme acc w r

/-- Fold the videos into theme buckets for a fixed candidate list. -/
def themeBucketsAux (cands : List (List Char)) (rows : List PDRow) :
    List (List Char × ThemeAcc) :=
  rows.foldl (themeStep cands) []

def themeBuckets (rows : List PDRow) : List (List Char × ThemeAcc) :=
  themeBucketsAux (commonWords rows) rows

/-- Python `str.title()` on a single lowercase word. -/
def capitalizeWord : List Char → List Char
  | [] => []
  | c :: cs => c.toUpper :: cs

/-- `PatternDetection._rate_performance`. -/
def ratePerformance (rows : List PDRow) (avg : ℚ) : String :=
  if meanQ (rows.map (fun r => (r.views : ℚ))) * (3/2) ≤ avg then "Excellent"
  else if meanQ (rows.map (fun r => (r.views : ℚ))) ≤ avg then "Good"
  else if meanQ (rows.map (fun r => (r.views : ℚ))) * (1/2) ≤ avg then
    "Average"
  else "Below Average"

structure ThemeInfo where
  theme : List Char
  count : ℕ
  avg_views : ℤ
  example_title : List Char
  performance : String
deriving Repr, DecidableEq

/-- `PatternDetection.detect_content_themes`: cluster the videos by their
single assigned keyword, aggregate per theme, sort by average views
(descending, stable) and return the top 10. -/
def detect_content_themes (rows : List PDRow) : List ThemeInfo :=
  if rows.isEmpty then []
  else
    (((themeBuckets rows).filterMap (fun p =>
        if 1 ≤ p.2.count then
          some { theme := capitalizeWord p.1
                 count := p.2.count
                 avg_views := pyInt (meanQ (p.2.viewsList.map (fun v => (v : ℚ))))
                 example_title := p.2.firstTitle.take 50
                 performance := ratePerformance rows
                   ((pyInt (meanQ (p.2.viewsList.map (fun v => (v : ℚ))))) : ℚ) }
        else none)).mergeSort
      (fun a b => decide (b.avg_views ≤ a.avg_views))).take 10

/-! ## Claim C6 — single-label theme assignment -/

theorem foldl_longest (h0 : List Char) (t : List (List Char)) :
    (t.foldl (fun best w => if best.length < w.length then w else best) h0)
        ∈ h0 :: t ∧
    ∀ v ∈ h0 :: t,
      v.length ≤
        (t.foldl (fun best w => if best.length < w.length then w else best)
          h0).length := by
  induction t generalizing h0 with
  | nil =>
    refine ⟨List.mem_cons_self _ _, ?_⟩
    intro v hv
    rcases List.mem_cons.mp hv with h2 | h2
    · subst h2; exact le_refl _
    · cases h2
  | cons w ws ih =>
    rw [List.foldl_cons]
    obtain ⟨ihmem, ihbound⟩ := ih (if h0.length < w.length then w else h0)
    constructor
    · rcases List.mem_cons.mp ihmem with h2 | h2
      · rw [h2]
        split
        · exact List.mem_cons_of_mem _ (List.mem_cons_self _ _)
        · exact List.mem_cons_self _ _
      · exact List.mem_cons_of_mem _ (List.mem_cons_of_mem _ h2)
    · intro v hv
      rcases List.mem_cons.mp hv with h2 | h2
      · subst h2
        have hstart : v.length ≤ (if v.length < w.length then w else v).length := by
          split
          · rename_i hc; exact Nat.le_of_lt hc
          · exact le_refl _
        exact le_trans hstart (ihbound _ (List.mem_cons_self _ _))
      · rcases List.mem_cons.mp h2 with h3 | h3
        · subst h3
          have hstart : v.length ≤ (if h0.length < v.length then v else h0).length := by
            split
            · exact le_refl _
            · rename_i hc; omega
          exact le_trans hstart (ihbound _ (List.mem_cons_self _ _))
        · exact ihbound v (List.mem_cons_of_mem _ h3)

/-- The theme picked by `primaryTheme` is a matched candidate of maximal
length (first among ties). -/
theorem primaryTheme_longest (cands : List (List Char)) (titleL : List Char)
    (w : List Char) (hw : primaryTheme cands titleL = some w) :
    w ∈ matchedThemes cands titleL ∧
    ∀ v ∈ matchedThemes cands titleL, v.length ≤ w.length := by
  unfold primaryTheme at hw
  split at hw
  · exact absurd hw (by simp)
  · rename_i h0 t heq
    rw [Option.some.injEq] at hw
    subst hw
    rw [heq]
    exact foldl_longest h0 t

theorem addToTheme_countSum (acc : List (List Char × ThemeAcc))
    (w : List Char) (r : PDRow) :
    ((addToTheme acc w r).map (fun p => p.2.count)).sum
      = ((acc.map (fun p => p.2.count)).sum) + 1 := by
  induction acc with
  | nil => simp [addToTheme]
  | cons p rest ih =>
    obtain ⟨x, a⟩ := p
    unfold addToTheme
    split
    · simp only [List.map_cons, List.sum_cons]
      omega
    · simp only [List.map_cons, List.sum_cons, ih]
      omega

theorem themeBucketsAux_countSum (cands : List (List Char))
    (rows : List PDRow) :
    ∀ acc : List (List Char × ThemeAcc),
      (((rows.foldl (themeStep cands) acc)).map (fun p => p.2.count)).sum
        ≤ ((acc.map (fun p => p.2.count)).sum) + rows.length := by
  induction rows with
  | nil => intro acc; simp
  | cons r rs ih =>
    intro acc
    rw [List.foldl_cons]
    cases hpt : primaryTheme cands (lowerTitle r.title) with
    | none =>
      have hstep : themeStep cands acc r = acc := by
        unfold themeStep
        rw [hpt]
      rw [hstep]
      exact le_trans (ih acc) (by simp)
    | some w =>
      have hstep : themeStep cands acc r = addToTheme acc w r := by
        unfold themeStep
        rw [hpt]
      rw [hstep]
      have h2 := ih (addToTheme acc w r)
      rw [addToTheme_countSum] at h2
      calc ((List.foldl (themeStep cands) (addToTheme acc w r) rs).map
              (fun p => p.2.count)).sum
          ≤ (acc.map (fun p => p.2.count)).sum + 1 + rs.length := h2
        _ ≤ (acc.map (fun p => p.2.count)).sum + (r :: rs).length := by
              simp only [List.length_cons]
              omega

theorem filterMap_counts_le (f : (List Char × ThemeAcc) → Option ThemeInfo)
    (hf : ∀ p t, f p = some t → t.count = p.2.count)
    (bs : List (List Char × ThemeAcc)) :
    ((bs.filterMap f).map (fun t => t.count)).sum
      ≤ (bs.map (fun p => p.2.count)).sum := by
  induction bs with
  | nil => simp
  | cons p rest ih =>
    rw [List.filterMap_cons]
    cases hfp : f p with
    | none =>
      simp only [List.map_cons, List.sum_cons]
      exact le_trans ih (Nat.le_add_left _ _)
    | some t =>
      simp only [List.map_cons, List.sum_cons]
      rw [hf p t hfp]
      exact Nat.add_le_add_left ih _

theorem sum_take_le (l : List ℕ) (n : ℕ) : (l.take n).sum ≤ l.sum := by
  induction l generalizing n with
  | nil => simp
  | cons x xs ih =>
    cases n with
    | zero => simp
    | succ m =>
      simp only [List.take_succ_cons, List.sum_cons]
      exact Nat.add_le_add_left (ih m) x

/-- Claim C6: theme assignment is single-label — each video is assigned (at
most) one theme, the longest candidate keyword occurring in its lowercased
title (videos matching no candidate are skipped), and consequently the
reported theme member counts sum to at most the RecordSet size. -/
theorem C6_single_label_themes (rows : List PDRow) :
    (∀ r ∈ rows, ∀ w,
       primaryTheme (commonWords rows) (lowerTitle r.title) = some w →
       w ∈ matchedThemes (commonWords rows) (lowerTitle r.title) ∧
       ∀ v ∈ matchedThemes (commonWords rows) (lowerTitle r.title),
         v.length ≤ w.length) ∧
    ((detect_content_themes rows).map (fun t => t.count)).sum ≤ rows.length := by
  constructor
  · intro r _ w hw
    exact primaryTheme_longest _ _ w hw
  · unfold detect_content_themes
    split
    · simp
    · set f : (List Char × ThemeAcc) → Option ThemeInfo := fun p =>
        if 1 ≤ p.2.count then
          some { theme := capitalizeWord p.1
                 count := p.2.count
                 avg_views := pyInt (meanQ (p.2.viewsList.map (fun v => (v : ℚ))))
                 example_title := p.2.firstTitle.take 50
                 performance := ratePerformance rows
                   ((pyInt (meanQ (p.2.viewsList.map (fun v => (v : ℚ))))) : ℚ) }
        else none with hfdef
      have hf : ∀ p t, f p = some t → t.count = p.2.count := by
        intro p t hft
        rw [hfdef] at hft
        simp only [] at hft
        split at hft
        · rw [Option.some.injEq] at hft
          rw [← hft]
        · exact absurd hft (by simp)
      calc ((((((themeBuckets rows).filterMap f)).mergeSort
                (fun a b => decide (b.avg_views ≤ a.avg_views))).take 10).map
              (fun t : ThemeInfo => t.count)).sum
          = ((((((themeBuckets rows).filterMap f)).mergeSort
                (fun a b => decide (b.avg_views ≤ a.avg_views))).map
              (fun t : ThemeInfo => t.count)).take 10).sum := by
            rw [List.map_take]
        _ ≤ (((((themeBuckets rows).filterMap f)).mergeSort
                (fun a b => decide (b.avg_views ≤ a.avg_views))).map
              (fun t : ThemeInfo => t.count)).sum := sum_take_le _ 10
        _ = (((themeBuckets rows).filterMap f).map
              (fun t : ThemeInfo => t.count)).sum := by
            exact ((List.mergeSort_perm ((themeBuckets rows).filterMap f)
              (fun a b => decide (b.avg_views ≤ a.avg_views))).map
              (fun t : ThemeInfo => t.count)).sum_eq
        _ ≤ ((themeBuckets rows).map (fun p => p.2.count)).sum :=
            filterMap_counts_le f hf _
        _ ≤ rows.length := by
            have h2 := themeBucketsAux_countSum (commonWords rows) rows []
            simpa [themeBuckets, themeBucketsAux] using h2

/-- One of two rows sharing three recurring keywords. -/
def c6row1 : PDRow := ⟨"alpha review gamma".toList, 50⟩

def c6rows : List PDRow := [c6row1, ⟨"alpha review gamma".toList, 20⟩]

/-- Claim C6 witness: on `c6rows` the assignment for the first row is the
keyword `review` — a matched candidate that is at least as long as the
matched candidate `alpha`. -/
theorem C6_witness :
    "review".toList ∈
      matchedThemes (commonWords c6rows) (lowerTitle c6row1.title) ∧
    ("alpha".toList).length ≤ ("review".toList).length :=
  have h := (C6_single_label_themes c6rows).1 c6row1 (by decide)
    "review".toList (by decide)
  ⟨h.1, h.2 "alpha".toList (by decide)⟩

/-! ## A/B Simulator — thumbnail comparison
(src/ab_testing.py, ABTestSimulator.compare_thumbnails)

`analyze_thumbnail` turns the decoded image into a feature record
(brightness, contrast, colorfulness, edge intensity, face-likeness,
text-likeness, aspect ratio) through pure pixel statistics; it is a
deterministic function of the image bytes, so byte-identical decodable
images yield identical `ThumbAnalysis` records.  `compare_thumbnails` is
embedded here from the point where both analyses succeeded (the error path
returns early with `winner = None`).

The Python brightness block is

    for score, analysis, reasons in [(score_a, analysis_a, reasons_a),
                                     (score_b, analysis_b, reasons_b)]:
        ...
        score += 15   # (or += 5)

which rebinds the loop-local name `score` to a new int and never updates
`score_a` / `score_b` (only the mutable `reasons` lists are updated), so in
the code as written brightness contributes nothing to either total.  The
embedding reproduces this faithfully. -/

structure ThumbAnalysis where
  brightness : ℚ
  contrast : ℚ
  colorfulness : ℚ
  edge_intensity : ℚ
  has_face_like_features : Bool
  has_text_like_features : Bool
  aspect_ratio : ℚ
deriving Repr, DecidableEq

structure ThumbCompare where
  winner : String
  score_a : ℕ
  score_b : ℕ
deriving Repr, DecidableEq

/-- The score combination of `compare_thumbnails` on two successful
analyses: brightness adds nothing to either total (the Python loop bug
described above); strictly better contrast adds 10 (5 each on a tie);
strictly more colorfulness adds 10 (5 each on a tie); a face adds 20; text
adds 15; strictly higher edge intensity adds 10 (nothing on a tie); a
strictly closer aspect ratio to 16:9 adds 10 (nothing on a tie).  The
winner is the higher total, reported as a tie on equality. -/
def compare_thumbnails (a b : ThumbAnalysis) : ThumbCompare :=
  let s1 : ℕ × ℕ :=
    if a.contrast > b.contrast then (10, 0)
    else if b.contrast > a.contrast then (0, 10)
    else (5, 5)
  let s2 : ℕ × ℕ :=
    if a.colorfulness > b.colorfulness then (s1.1 + 10, s1.2)
    else if b.colorfulness > a.colorfulness then (s1.1, s1.2 + 10)
    else (s1.1 + 5, s1.2 + 5)
  let s3 : ℕ × ℕ :=
    ((if a.has_face_like_features then s2.1 + 20 else s2.1),
     (if b.has_face_like_features then s2.2 + 20 else s2.2))
  let s4 : ℕ × ℕ :=
    ((if a.has_text_like_features then s3.1 + 15 else s3.1),
     (if b.has_text_like_features then s3.2 + 15 else s3.2))
  let s5 : ℕ × ℕ :=
    if a.edge_intensity > b.edge_intensity then (s4.1 + 10, s4.2)
    else if b.edge_intensity > a.edge_intensity then (s4.1, s4.2 + 10)
    else s4
  let s6 : ℕ × ℕ :=
    if |a.aspect_ratio - 16 / 9| < |b.aspect_ratio - 16 / 9| then
      (s5.1 + 10, s5.2)
    else if |b.aspect_ratio - 16 / 9| < |a.aspect_ratio - 16 / 9| then
      (s5.1, s5.2 + 10)
    else s5
  { winner := if s6.1 > s6.2 then "A" else if s6.2 > s6.1 then "B" else "Tie"
    score_a := s6.1
    score_b := s6.2 }

/-! ## Claims C8, C9 — thumbnail scoring -/

/-- Analysis of an image whose brightness (120) lies in the optimal
`[100, 180]` range, all other features neutral. -/
def c8good : ThumbAnalysis := ⟨120, 40, 30, 10, false, false, 16/9⟩

/-- Analysis of an identical image except for brightness 50 (below the
optimal range). -/
def c8dim : ThumbAnalysis := ⟨50, 40, 30, 10, false, false, 16/9⟩

/-- Claim C8 (code bug): comparing an optimally bright image against an
otherwise-identical dim one, both totals are 10 (5 for the contrast tie
plus 5 for the colorfulness tie) and the result is a tie — brightness
contributed 0 points to each total, although the claim (and the clear
intent of the code, which also appends a "Good brightness" reason) awards
+15 for brightness in `[100, 180]` and +5 otherwise.  The Python loop
rebinds its local `score` and never updates `score_a` / `score_b`. -/
theorem C8_brightness_scoring_bug :
    compare_thumbnails c8good c8dim = ⟨"Tie", 10, 10⟩ ∧
    (compare_thumbnails c8good c8dim).score_a =
      (compare_thumbnails c8good c8dim).score_b := by
  constructor
  · norm_num [compare_thumbnails, c8good, c8dim]
  · norm_num [compare_thumbnails, c8good, c8dim]

/-- Claim C9: comparing two byte-identical, successfully decodable images
means comparing two equal analysis records (`analyze_thumbnail` is a pure
function of the bytes); every comparison of an analysis with itself yields
equal scores and the explicit winner "Tie" — a tie is never broken in
favour of either side. -/
theorem C9_identical_tie (a : ThumbAnalysis) :
    (compare_thumbnails a a).winner = "Tie" ∧
    (compare_thumbnails a a).score_a = (compare_thumbnails a a).score_b := by
  unfold compare_thumbnails
  simp only [lt_irrefl, if_false, gt_iff_lt]
  norm_num
